import Mathlib

/-!
Verification of the `allpy` two-player all-pay contest solver.

The source (`allpy/__init__.py`) has two functions:

* `gtilde(vi, ci, b, num, method)` — the single-player atomless-distribution
  solver.  When `vi` is callable it delegates to the external
  `inteq.SolveVolterra` backend (modelled here as an abstract `Solver`
  parameter) and forms the CDF as `cumsum(pdf * (b/num))`; when `vi` is a
  number it uses the closed form `cdf = ci(grid)/vi` on the grid
  `linspace(b/num, b, num)` and recovers the pdf as
  `insert(diff(cdf), 0, cdf[0])`.  It then computes
  `bari = argmax(sgrid[cdf <= 1])` (a ValueError when the filtered array is
  empty, modelled as `GErr.emptyArgmax`) and returns the distribution with
  `pdf * num`, `sbar = sgrid[bari]` and `success = cdf[-1] > 1`.

* `eq2p(v, c, b, num)` — interprets the `v`/`c` arguments (bare value, or
  tuple of length 1 or 2; note the source tests `len(v) == 1` — not
  `len(c) == 1` — in the cost branch), guesses a bound when `b is None`,
  then loops: `player2 = gtilde(v1, c1, b, num)`,
  `player1 = gtilde(v2, c2, b, num)`, stops when either `success` flag is
  set, otherwise doubles `b`.  Finally it truncates both distributions at
  `bari = min(sbari1, sbari2)`, shifts each truncated CDF by
  `- cdf[-1] + 1`, and returns the combined equilibrium.

Numbers are modelled as rationals (the claims concern the exact algebraic
behaviour of the code); the unbounded `while True` loop is modelled with an
explicit fuel argument, `fuel` exhaustion standing for "still looping", and
a Python exception is an `Except.error`.  Negative-index accesses `xs[-1]`
are modelled as `xs.getD (xs.length - 1) 0`; every reachable access is on a
nonempty list, where this agrees with Python.
-/

deriving instance DecidableEq for Except

/-- A player's cost function `ci(own_score)` (vectorized in the source;
pointwise here). -/
abbrev Cost : Type := ℚ → ℚ

/-- The `vi` argument of `gtilde`: either a genuine two-argument value
function (Python callable) or a bare number (`int`/`float`). -/
inductive Value : Type where
  | fn (f : ℚ → ℚ → ℚ)
  | const (q : ℚ)

/-- The external `inteq.SolveVolterra` backend (kernel, forcing function,
upper bound, grid size ↦ grid and solution arrays).  It is a third-party
dependency, not code of this repository, so it is kept abstract: every
theorem about the callable branch holds for an arbitrary backend. -/
abbrev Solver : Type := (ℚ → ℚ → ℚ) → (ℚ → ℚ) → ℚ → ℕ → List ℚ × List ℚ

/-- Python exceptions raised inside `gtilde`. -/
inductive GErr : Type where
  /-- Raised by `numpy.argmax` on the empty filtered array (a ValueError). -/
  | emptyArgmax
  /-- Raised by `b / num` with `num = 0` (a ZeroDivisionError). -/
  | zeroDiv
  /-- boolean mask whose length differs from the indexed array
  (`IndexError`); impossible in the constant branch. -/
  | shape
  deriving DecidableEq, Repr

/-- The dict returned by `gtilde`. -/
structure Distr : Type where
  s : List ℚ
  pdf : List ℚ
  cdf : List ℚ
  sbari : ℕ
  sbar : ℚ
  success : Bool
  deriving DecidableEq, Repr

/-- Model of `numpy.linspace start stop num` (with `endpoint=True`): `num` evenly
spaced points from `start` to `stop`; a single-point call returns
`[start]`. -/
def linspace (start stop : ℚ) (num : ℕ) : List ℚ :=
  if num ≤ 1 then (List.range num).map (fun _ => start)
  else (List.range num).map (fun (i : ℕ) => start + (i : ℚ) * ((stop - start) / ((num : ℚ) - 1)))

/-- Model of `numpy.cumsum`. -/
def cumsum : List ℚ → List ℚ
  | [] => []
  | x :: xs => x :: (cumsum xs).map (fun y => x + y)

/-- Model of `numpy.diff`: differences of consecutive elements. -/
def diffs : List ℚ → List ℚ
  | [] => []
  | [_] => []
  | a :: b :: t => (b - a) :: diffs (b :: t)

/-- Model of `numpy.insert(numpy.diff(cdf), 0, cdf[0])`: the pdf recovered from a
cdf in the constant-value branch of `gtilde`. -/
def pdfFromCdf (cdf : List ℚ) : List ℚ :=
  match cdf with
  | [] => []
  | c :: rest => c :: diffs (c :: rest)

/-- Tail-recursive worker for `numpy.argmax`: index of the first
occurrence of the maximum (updates only on a strictly larger value). -/
def argmaxGo (bestv : ℚ) (besti i : ℕ) : List ℚ → ℕ
  | [] => besti
  | y :: ys => if bestv < y then argmaxGo y i (i + 1) ys else argmaxGo bestv besti (i + 1) ys

/-- Model of `numpy.argmax`: `none` on the empty array (where numpy raises
`ValueError`). -/
def argmaxIdx : List ℚ → Option ℕ
  | [] => none
  | x :: xs => some (argmaxGo x 0 1 xs)

/-- The grid, raw pdf and cdf computed by the two branches of `gtilde`
(source lines 26–37), before the shared truncation-index logic. -/
def gtildeRaw (sv : Solver) (vi : Value) (ci : Cost) (b : ℚ) (num : ℕ) :
    List ℚ × List ℚ × List ℚ :=
  match vi with
  | .fn f =>
    let r := sv f ci b num
    (r.1, r.2, cumsum (r.2.map (fun x => x * (b / (num : ℚ)))))
  | .const v =>
    let sgrid := linspace (b / (num : ℚ)) b num
    let cdfi := sgrid.map (fun s => ci s / v)
    (sgrid, pdfFromCdf cdfi, cdfi)

/-- The shared tail of `gtilde` (source lines 38–47): the boolean-mask
filtering `sgrid[cdfi <= 1]`, the `argmax` truncation index and the
returned dict. -/
def gtildeFin (sgrid pdfi cdfi : List ℚ) (num : ℕ) : Except GErr Distr :=
  if sgrid.length = cdfi.length then
    match argmaxIdx (((sgrid.zip cdfi).filter (fun p => decide (p.2 ≤ 1))).map Prod.fst) with
    | none => .error .emptyArgmax
    | some bari =>
      .ok { s := sgrid
            pdf := pdfi.map (fun x => x * (num : ℚ))
            cdf := cdfi
            sbari := bari
            sbar := sgrid.getD bari 0
            success := decide (1 < cdfi.getD (cdfi.length - 1) 0) }
  else .error .shape

/-- The solver `gtilde` (source lines 10–47). -/
def gtilde (sv : Solver) (vi : Value) (ci : Cost) (b : ℚ) (num : ℕ) :
    Except GErr Distr :=
  if num = 0 then .error .zeroDiv else
  gtildeFin (gtildeRaw sv vi ci b num).1 (gtildeRaw sv vi ci b num).2.1
    (gtildeRaw sv vi ci b num).2.2 num

/-- Python exceptions raised while `eq2p` interprets its `v`/`c`
arguments. -/
inductive PyErr : Type where
  /-- an explicit `raise ValueError(...)` or a tuple-unpacking mismatch
  (`(c1,) = c` with `len(c) ≠ 1`), both `ValueError` in Python. -/
  | valueError
  /-- Raised when `len(v)` is evaluated on a non-sequence (a TypeError). -/
  | typeError
  deriving DecidableEq, Repr

/-- Errors out of `eq2p`: a propagated interpretation error, a propagated
`gtilde` exception, or fuel exhaustion (the source loop is unbounded;
`fuelOut` stands for "still looping after `fuel` iterations"). -/
inductive EqErr : Type where
  | py (e : PyErr)
  | solver (e : GErr)
  | fuelOut
  deriving DecidableEq, Repr

/-- The `v` argument of `eq2p`: a bare callable/int/float, or a tuple. -/
inductive VInput : Type where
  | bare (v : Value)
  | tup (l : List Value)

/-- The `c` argument of `eq2p`: a bare callable, or a tuple. -/
inductive CInput : Type where
  | bare (c : Cost)
  | tup (l : List Cost)

/-- Interpretation of `v` (source lines 64–74): a bare
callable/int/float is broadcast, a 2-tuple is unpacked, a 1-tuple is
broadcast, anything else raises `ValueError`. -/
def interpV : VInput → Except PyErr (Value × Value)
  | .bare v => .ok (v, v)
  | .tup [a, b] => .ok (a, b)
  | .tup [a] => .ok (a, a)
  | .tup _ => .error .valueError

/-- Interpretation of `c` (source lines 76–86).  Note the source tests
`len(v) == 1` — the length of `v`, not of `c` — in the third branch: when
`v` is not a tuple that raises `TypeError`, and when `v` is a tuple of
length ≠ 1 a 1-tuple `c` falls through to `raise ValueError`. -/
def interpC (v : VInput) : CInput → Except PyErr (Cost × Cost)
  | .bare f => .ok (f, f)
  | .tup [a, b] => .ok (a, b)
  | .tup l =>
    match v with
    | .bare _ => .error .typeError
    | .tup vl =>
      if vl.length = 1 then
        match l with
        | [a] => .ok (a, a)
        | _ => .error .valueError
      else .error .valueError

/-- Either `v1(0,0)` or the bare number `v1` itself (source lines 89–97). -/
def valueAt00 : Value → ℚ
  | .fn f => f 0 0
  | .const q => q

/-- One player's contribution to the initial bound guess:
`v(0,0) / (c(1/num) * num)`. -/
def bGuess (v : Value) (c : Cost) (num : ℕ) : ℚ :=
  valueAt00 v / (c (1 / (num : ℚ)) * (num : ℚ))

/-- The bound `eq2p` starts its loop with: the caller's `b` when given,
else `min(b1, b2)` from the heuristic guesses (source lines 88–100). -/
def initBound (v1 : Value) (c1 : Cost) (v2 : Value) (c2 : Cost) (num : ℕ) :
    Option ℚ → ℚ
  | some b => b
  | none => min (bGuess v1 c1 num) (bGuess v2 c2 num)

/-- The `while True` bound-doubling loop of `eq2p` (source lines 102–110),
with explicit fuel.  Each iteration runs `gtilde(v1, c1, b, num)` for
player 2 and `gtilde(v2, c2, b, num)` for player 1, stops when either
`success` flag is set, and otherwise recurses at `2 * b`. -/
def eq2pLoop (sv : Solver) (v1 : Value) (c1 : Cost) (v2 : Value) (c2 : Cost)
    (num : ℕ) : ℕ → ℚ → Except EqErr (Distr × Distr × ℚ)
  | 0, _ => .error .fuelOut
  | fuel + 1, b =>
    match gtilde sv v1 c1 b num with
    | .error e => .error (.solver e)
    | .ok player2 =>
      match gtilde sv v2 c2 b num with
      | .error e => .error (.solver e)
      | .ok player1 =>
        if player1.success || player2.success then .ok (player1, player2, b)
        else eq2pLoop sv v1 c1 v2 c2 num fuel (2 * b)

/-- The dict returned by `eq2p`. -/
structure Equi : Type where
  s : List ℚ
  pdf : List ℚ × List ℚ
  cdf : List ℚ × List ℚ
  sbari : ℕ
  sbar : ℚ
  b : ℚ
  deriving DecidableEq, Repr

/-- Post-loop reconciliation (source lines 111–127): truncate at
`bari = min(sbari1, sbari2)`, shift each truncated CDF by
`- G[-1] + 1`, return the truncated grid and the final bound. -/
def mkEqui (p1 p2 : Distr) (bf : ℚ) : Equi :=
  let bari := min p1.sbari p2.sbari
  let g1 := p1.pdf.take (bari + 1)
  let g2 := p2.pdf.take (bari + 1)
  let G1 := p1.cdf.take (bari + 1)
  let G2 := p2.cdf.take (bari + 1)
  let sg := p1.s.take (bari + 1)
  { s := sg
    pdf := (g1, g2)
    cdf := (G1.map (fun x => x - G1.getD (G1.length - 1) 0 + 1),
            G2.map (fun x => x - G2.getD (G2.length - 1) 0 + 1))
    sbari := bari
    sbar := sg.getD (sg.length - 1) 0
    b := bf }

/-- The two-player equilibrium function `eq2p` (source lines 53–127). -/
def eq2p (sv : Solver) (vin : VInput) (cin : CInput) (bIn : Option ℚ)
    (num fuel : ℕ) : Except EqErr Equi :=
  match interpV vin with
  | .error e => .error (.py e)
  | .ok (v1, v2) =>
    match interpC vin cin with
    | .error e => .error (.py e)
    | .ok (c1, c2) =>
      match eq2pLoop sv v1 c1 v2 c2 num fuel (initBound v1 c1 v2 c2 num bIn) with
      | .error e => .error e
      | .ok (p1, p2, bf) => .ok (mkEqui p1 p2 bf)

/-- A trivial stand-in for the external backend, used in the concrete
witnesses below (all of which exercise the constant-value branch, which
never consults the backend). -/
def sv0 : Solver := fun _ _ _ _ => ([], [])

/-- The identity cost function `lambda x: x`. -/
def cid : Cost := fun x => x

/-- A cost function that is not monotone on the grid `[1/2, 1]`:
`c(1/2) = 2`, `c(1) = 1/2`. -/
def cbad2 : Cost := fun s => if s = 1/2 then 2 else 1/2

/-- A cost function that is not monotone on the grid `[1/3, 2/3, 1]`:
`c(1/3) = 2`, `c(2/3) = 1/2`, `c(1) = 3`. -/
def cbad3 : Cost := fun s => if s = 1/3 then 2 else if s = 2/3 then 1/2 else 3

/-- The affine cost `lambda x: x + 2`, whose cdf is everywhere above 1 on
the grid `[1/2, 1]` with unit value and bound 1. -/
def cplus2 : Cost := fun s => s + 2

/-- Result of `gtilde(1, id, b=1, num=2)`. -/
def d1ex : Distr :=
  { s := [1/2, 1], pdf := [1, 1], cdf := [1/2, 1], sbari := 1, sbar := 1, success := false }

/-- Result of `gtilde(1, id, b=2, num=2)`. -/
def d2ex : Distr :=
  { s := [1, 2], pdf := [2, 2], cdf := [1, 2], sbari := 0, sbar := 1, success := true }

/-- Result of `gtilde(1, id, b=1/2, num=2)`. -/
def dHalf : Distr :=
  { s := [1/4, 1/2], pdf := [1/2, 1/2], cdf := [1/4, 1/2], sbari := 1, sbar := 1/2,
    success := false }

/-- Result of `gtilde(1, cbad2, b=1, num=2)`: the mask `cdf ≤ 1` is `[F, T]`, so the
filtered grid is `[1]` and `argmax` yields 0 — an index into the filtered
array, not the original one. -/
def d2bad : Distr :=
  { s := [1/2, 1], pdf := [4, -3], cdf := [2, 1/2], sbari := 0, sbar := 1/2, success := false }

/-- Result of `gtilde(1, cbad3, b=1, num=3)`: mask `[F, T, F]`, `sbari = 0`,
`cdf[0] = 2 > 1`, and `success = True` since `cdf[-1] = 3 > 1`. -/
def d3bad : Distr :=
  { s := [1/3, 2/3, 1], pdf := [6, -9/2, 15/2], cdf := [2, 1/2, 3], sbari := 0, sbar := 1/3,
    success := true }

lemma gtilde_eval_one : gtilde sv0 (.const 1) cid 1 2 = .ok d1ex := by
  norm_num [gtilde, gtildeFin, gtildeRaw, linspace, List.range_succ, pdfFromCdf, diffs,
    argmaxIdx, argmaxGo, cid, d1ex]

lemma gtilde_eval_two : gtilde sv0 (.const 1) cid 2 2 = .ok d2ex := by
  norm_num [gtilde, gtildeFin, gtildeRaw, linspace, List.range_succ, pdfFromCdf, diffs,
    argmaxIdx, argmaxGo, cid, d2ex]

lemma gtilde_eval_half : gtilde sv0 (.const 1) cid (1/2) 2 = .ok dHalf := by
  norm_num [gtilde, gtildeFin, gtildeRaw, linspace, List.range_succ, pdfFromCdf, diffs,
    argmaxIdx, argmaxGo, cid, dHalf]

lemma gtilde_eval_bad2 : gtilde sv0 (.const 1) cbad2 1 2 = .ok d2bad := by
  norm_num [gtilde, gtildeFin, gtildeRaw, linspace, List.range_succ, pdfFromCdf, diffs,
    argmaxIdx, argmaxGo, cbad2, d2bad]

lemma gtilde_eval_bad3 : gtilde sv0 (.const 1) cbad3 1 3 = .ok d3bad := by
  norm_num [gtilde, gtildeFin, gtildeRaw, linspace, List.range_succ, pdfFromCdf, diffs,
    argmaxIdx, argmaxGo, cbad3, d3bad]

lemma gtilde_eval_cplus2 : gtilde sv0 (.const 1) cplus2 1 2 = .error .emptyArgmax := by
  norm_num [gtilde, gtildeFin, gtildeRaw, linspace, List.range_succ, pdfFromCdf, diffs,
    argmaxIdx, argmaxGo, cplus2]

/-! ### Generic list lemmas -/

lemma getD_map_of_lt (f : ℚ → ℚ) (l : List ℚ) (i : ℕ) (h : i < l.length) :
    (l.map f).getD i 0 = f (l.getD i 0) := by
  rw [List.getD_eq_getElem _ _ (by simpa using h), List.getD_eq_getElem _ _ h,
    List.getElem_map]

lemma getD_take_of_lt (l : List ℚ) (n i : ℕ) (hn : i < n) (hl : i < l.length) :
    (l.take n).getD i 0 = l.getD i 0 := by
  rw [List.getD_eq_getElem _ _ (by simp only [List.length_take]; omega),
    List.getD_eq_getElem _ _ hl, List.getElem_take]

lemma pairwise_le_getD (l : List ℚ) (h : l.Pairwise (· ≤ ·)) (i j : ℕ)
    (hij : i ≤ j) (hj : j < l.length) : l.getD i 0 ≤ l.getD j 0 := by
  rcases Nat.eq_or_lt_of_le hij with rfl | hlt
  · exact le_refl _
  · rw [List.getD_eq_getElem _ _ (lt_of_le_of_lt hij hj), List.getD_eq_getElem _ _ hj]
    exact List.pairwise_iff_getElem.mp h i j _ _ hlt

lemma takeWhile_getD_true (p : ℚ → Bool) :
    ∀ (l : List ℚ) (j : ℕ), j < (l.takeWhile p).length → p (l.getD j 0) = true := by
  intro l
  induction l with
  | nil => intro j hj; simp at hj
  | cons x t ih =>
    intro j hj
    rw [List.takeWhile_cons] at hj
    by_cases hx : p x = true
    · rw [if_pos hx, List.length_cons] at hj
      cases j with
      | zero => simpa using hx
      | succ j => rw [List.getD_cons_succ]; exact ih j (by omega)
    · rw [if_neg hx] at hj
      simp at hj


lemma takeWhile_getD_false (p : ℚ → Bool) :
    ∀ l : List ℚ, (l.takeWhile p).length < l.length →
      p (l.getD (l.takeWhile p).length 0) = false := by
  intro l
  induction l with
  | nil => intro h; simp at h
  | cons x t ih =>
    intro h
    by_cases px : p x = true
    · rw [List.takeWhile_cons, if_pos px] at h ⊢
      rw [List.length_cons, List.length_cons] at h
      rw [List.length_cons, List.getD_cons_succ]
      exact ih (by omega)
    · rw [List.takeWhile_cons, if_neg px]
      rw [List.length_nil, List.getD_cons_zero]
      simpa [Bool.not_eq_true] using px

lemma takeWhile_length_le (p : ℚ → Bool) (l : List ℚ) :
    (l.takeWhile p).length ≤ l.length :=
  (List.takeWhile_sublist p).length_le

lemma filter_eq_takeWhile_of_pairwise (p : ℚ × ℚ → Bool) :
    ∀ l : List (ℚ × ℚ), l.Pairwise (fun a b => p b = true → p a = true) →
      l.filter p = l.takeWhile p := by
  intro l
  induction l with
  | nil => intro _; rfl
  | cons x t ih =>
    intro h
    rw [List.pairwise_cons] at h
    by_cases px : p x = true
    · rw [List.filter_cons, List.takeWhile_cons, if_pos px, if_pos px, ih h.2]
    · rw [List.filter_cons, List.takeWhile_cons, if_neg px, if_neg px]
      exact List.filter_eq_nil_iff.mpr (fun a ha hpa => px (h.1 a ha hpa))

lemma pairwise_zip_of_snd {S : ℚ → ℚ → Prop} (l₁ l₂ : List ℚ)
    (h : l₂.Pairwise S) : (l₁.zip l₂).Pairwise (fun a b => S a.2 b.2) := by
  rw [List.pairwise_iff_getElem] at h ⊢
  intro i j hi hj hij
  have hi' := hi
  have hj' := hj
  rw [List.length_zip] at hi' hj'
  simp only [List.getElem_zip]
  exact h i j (by omega) (by omega) hij

lemma map_fst_takeWhile_zip (q : ℚ → Bool) :
    ∀ s c : List ℚ, (((s.zip c).takeWhile (fun p => q p.2)).map Prod.fst)
      = s.take ((c.takeWhile q).length) := by
  intro s
  induction s with
  | nil => intro c; simp
  | cons a s' ih =>
    intro c
    cases c with
    | nil => simp
    | cons b c' =>
      by_cases hb : q b = true
      · rw [List.zip_cons_cons, List.takeWhile_cons, List.takeWhile_cons]
        rw [if_pos hb, if_pos (show (fun p : ℚ × ℚ => q p.2) (a, b) = true from hb)]
        rw [List.map_cons, ih c', List.length_cons, List.take_succ_cons]
      · rw [List.zip_cons_cons, List.takeWhile_cons, List.takeWhile_cons]
        rw [if_neg hb, if_neg (show ¬ (fun p : ℚ × ℚ => q p.2) (a, b) = true from hb)]
        rw [List.length_nil, List.take_zero, List.map_nil]

lemma argmaxGo_lt :
    ∀ (xs : List ℚ) (bestv : ℚ) (besti i : ℕ), besti < i →
      argmaxGo bestv besti i xs < i + xs.length := by
  intro xs
  induction xs with
  | nil => intro _ besti i h; simpa [argmaxGo] using h
  | cons y ys ih =>
    intro bestv besti i h
    rw [argmaxGo]
    by_cases hy : bestv < y
    · rw [if_pos hy]
      have := ih y i (i + 1) (by omega)
      rw [List.length_cons]
      omega
    · rw [if_neg hy]
      have := ih bestv besti (i + 1) (by omega)
      rw [List.length_cons]
      omega

lemma argmaxGo_of_ascending :
    ∀ (xs : List ℚ) (bestv : ℚ) (besti i : ℕ), xs ≠ [] →
      xs.Pairwise (· < ·) → (∀ y ∈ xs, bestv < y) →
      argmaxGo bestv besti i xs = i + xs.length - 1 := by
  intro xs
  induction xs with
  | nil => intro _ _ _ h _ _; exact absurd rfl h
  | cons y ys ih =>
    intro bestv besti i _ hp hall
    have hy : bestv < y := hall y (List.mem_cons_self y ys)
    rw [argmaxGo, if_pos hy]
    rw [List.pairwise_cons] at hp
    by_cases hys : ys = []
    · subst hys; simp [argmaxGo]
    · rw [ih y i (i + 1) hys hp.2 hp.1, List.length_cons]
      omega

lemma argmaxIdx_of_ascending (l : List ℚ) (hne : l ≠ [])
    (hp : l.Pairwise (· < ·)) : argmaxIdx l = some (l.length - 1) := by
  cases l with
  | nil => exact absurd rfl hne
  | cons x xs =>
    rw [argmaxIdx]
    rw [List.pairwise_cons] at hp
    by_cases hxs : xs = []
    · subst hxs; simp [argmaxGo]
    · rw [argmaxGo_of_ascending xs x 0 1 hxs hp.2 hp.1, List.length_cons]
      congr 1
      omega

lemma argmaxIdx_lt_length (l : List ℚ) (i : ℕ) (h : argmaxIdx l = some i) :
    i < l.length := by
  cases l with
  | nil => simp [argmaxIdx] at h
  | cons x xs =>
    rw [argmaxIdx] at h
    have hb := argmaxGo_lt xs x 0 1 (by omega)
    have hi := Option.some.inj h
    rw [List.length_cons]
    omega

/-! ### Inversion facts about `gtilde` -/

lemma gtilde_ok_elim (sv : Solver) (vi : Value) (ci : Cost) (b : ℚ) (num : ℕ)
    (d : Distr) (h : gtilde sv vi ci b num = .ok d) :
    num ≠ 0 ∧
    d.s = (gtildeRaw sv vi ci b num).1 ∧
    d.pdf = (gtildeRaw sv vi ci b num).2.1.map (fun x => x * (num : ℚ)) ∧
    d.cdf = (gtildeRaw sv vi ci b num).2.2 ∧
    d.s.length = d.cdf.length ∧
    argmaxIdx (((d.s.zip d.cdf).filter (fun p => decide (p.2 ≤ 1))).map Prod.fst)
      = some d.sbari ∧
    d.sbar = d.s.getD d.sbari 0 ∧
    d.success = decide (1 < d.cdf.getD (d.cdf.length - 1) 0) := by
  unfold gtilde at h
  by_cases hnum : num = 0
  · rw [if_pos hnum] at h
    exact absurd h (by simp)
  · rw [if_neg hnum] at h
    unfold gtildeFin at h
    split at h
    next hlen =>
      split at h
      next => exact absurd h (by simp)
      next bari hbari =>
        have hd := Except.ok.inj h
        subst hd
        exact ⟨hnum, rfl, rfl, rfl, hlen, hbari, rfl, rfl⟩
    next hlen => exact absurd h (by simp)

lemma gtilde_ok_sbari_lt (sv : Solver) (vi : Value) (ci : Cost) (b : ℚ)
    (num : ℕ) (d : Distr) (h : gtilde sv vi ci b num = .ok d) :
    d.sbari < d.cdf.length ∧ d.sbari < d.s.length := by
  obtain ⟨-, -, -, -, hlen, hargmax, -, -⟩ := gtilde_ok_elim sv vi ci b num d h
  have hlt := argmaxIdx_lt_length _ _ hargmax
  rw [List.length_map] at hlt
  have hfil := List.length_filter_le (fun p => decide (p.2 ≤ 1)) (d.s.zip d.cdf)
  have hzip : (d.s.zip d.cdf).length = min d.s.length d.cdf.length := List.length_zip _ _
  have h1 : min d.s.length d.cdf.length ≤ d.s.length := min_le_left _ _
  have h2 : min d.s.length d.cdf.length ≤ d.cdf.length := min_le_right _ _
  omega

lemma map_fst_takeWhile_zip_le (s c : List ℚ) :
    (((s.zip c).takeWhile (fun p => decide (p.2 ≤ 1))).map Prod.fst)
      = s.take ((c.takeWhile (fun x => decide (x ≤ 1))).length) := by
  exact map_fst_takeWhile_zip (fun x => decide (x ≤ 1)) s c

/-- When the grid is strictly increasing and the cdf non-decreasing, the
mask `cdf ≤ 1` is a prefix, and `argmax(sgrid[cdf <= 1])` really is the
largest grid index with `cdf ≤ 1` (in general it is only an index into the
filtered array). -/
lemma gtilde_ok_sbari_spec (sv : Solver) (vi : Value) (ci : Cost) (b : ℚ)
    (num : ℕ) (d : Distr) (h : gtilde sv vi ci b num = .ok d)
    (hs : d.s.Pairwise (· < ·)) (hc : d.cdf.Pairwise (· ≤ ·)) :
    d.sbari < d.cdf.length ∧
    d.cdf.getD d.sbari 0 ≤ 1 ∧
    (∀ j < d.cdf.length, d.cdf.getD j 0 ≤ 1 → j ≤ d.sbari) ∧
    (d.sbari + 1 < d.cdf.length → 1 < d.cdf.getD (d.sbari + 1) 0) := by
  obtain ⟨-, -, -, -, hlen, hargmax, -, -⟩ := gtilde_ok_elim sv vi ci b num d h
  have hzipPW : (d.s.zip d.cdf).Pairwise
      (fun a b : ℚ × ℚ => decide (b.2 ≤ 1) = true → decide (a.2 ≤ 1) = true) := by
    refine (pairwise_zip_of_snd (S := (· ≤ ·)) d.s d.cdf hc).imp ?_
    intro a b hab hb
    simp only [decide_eq_true_eq] at hb ⊢
    exact le_trans hab hb
  rw [filter_eq_takeWhile_of_pairwise (fun p => decide (p.2 ≤ 1)) _ hzipPW,
    map_fst_takeWhile_zip_le] at hargmax
  have hkle : (d.cdf.takeWhile (fun x => decide (x ≤ 1))).length ≤ d.cdf.length :=
    takeWhile_length_le _ _
  set k := (d.cdf.takeWhile (fun x => decide (x ≤ 1))).length with hk
  have htake_pw : (d.s.take k).Pairwise (· < ·) :=
    List.Pairwise.sublist (List.take_sublist k d.s) hs
  have hne : d.s.take k ≠ [] := by
    intro hemp
    rw [hemp] at hargmax
    simp [argmaxIdx] at hargmax
  rw [argmaxIdx_of_ascending _ hne htake_pw] at hargmax
  have hks : k ≤ d.s.length := by omega
  have hlen_take : (d.s.take k).length = k := by
    rw [List.length_take]
    exact min_eq_left hks
  rw [hlen_take] at hargmax
  have hsb : d.sbari = k - 1 := (Option.some.inj hargmax).symm
  have hkpos : 0 < k := by
    rcases Nat.eq_zero_or_pos k with h0 | h
    · exact absurd (by rw [h0]; exact List.take_zero d.s) hne
    · exact h
  have habove : ∀ m, m < d.cdf.length → k ≤ m → 1 < d.cdf.getD m 0 := by
    intro m hm hkm
    have hfalse := takeWhile_getD_false (fun x => decide (x ≤ 1)) d.cdf (by omega)
    rw [← hk] at hfalse
    have hnot : ¬ d.cdf.getD k 0 ≤ 1 := of_decide_eq_false hfalse
    have hkm' : d.cdf.getD k 0 ≤ d.cdf.getD m 0 := pairwise_le_getD _ hc k m hkm hm
    exact lt_of_lt_of_le (not_le.mp hnot) hkm'
  refine ⟨by omega, ?_, ?_, ?_⟩
  · have htrue := takeWhile_getD_true (fun x => decide (x ≤ 1)) d.cdf (k - 1)
      (by rw [← hk]; omega)
    rw [hsb]
    exact of_decide_eq_true htrue
  · intro j hj hjle
    by_contra hgt
    push_neg at hgt
    exact absurd hjle (not_le.mpr (habove j hj (by omega)))
  · intro hlt
    have hksucc : d.sbari + 1 = k := by omega
    rw [hksucc]
    exact habove k (by omega) (le_refl k)

/-! ### The constant-value branch -/

lemma getD_map_general {α β : Type} (f : α → β) (d : α) (e : β) (l : List α)
    (i : ℕ) (h : i < l.length) : (l.map f).getD i e = f (l.getD i d) := by
  rw [List.getD_eq_getElem _ _ (by simpa using h), List.getD_eq_getElem _ _ h,
    List.getElem_map]

lemma length_linspace (start stop : ℚ) (num : ℕ) :
    (linspace start stop num).length = num := by
  unfold linspace
  split <;> rw [List.length_map, List.length_range]

lemma linspace_getD (b : ℚ) (num : ℕ) (hn : 0 < num) (i : ℕ) (hi : i < num) :
    (linspace (b / (num : ℚ)) b num).getD i 0 = ((i : ℚ) + 1) * b / num := by
  unfold linspace
  by_cases h1 : num ≤ 1
  · have hnum : num = 1 := by omega
    subst hnum
    have hi0 : i = 0 := by omega
    subst hi0
    norm_num
  · rw [if_neg h1]
    have hi' : i < (List.range num).length := by simpa using hi
    rw [getD_map_general _ 0 0 _ i hi']
    have hrange : (List.range num).getD i 0 = i := by
      rw [List.getD_eq_getElem _ _ hi', List.getElem_range]
    rw [hrange]
    have hnum0 : (num : ℚ) ≠ 0 := Nat.cast_ne_zero.mpr (by omega)
    have hnum2 : (2 : ℚ) ≤ (num : ℚ) := by exact_mod_cast (by omega : 2 ≤ num)
    have hnum1 : (num : ℚ) - 1 ≠ 0 := by intro heq; linarith
    field_simp
    ring

lemma diffs_length : ∀ l : List ℚ, (diffs l).length = l.length - 1 := by
  intro l
  induction l with
  | nil => rfl
  | cons a t ih =>
    cases t with
    | nil => rfl
    | cons b t' =>
      have := ih
      simp only [diffs, List.length_cons] at this ⊢
      omega

lemma diffs_getD :
    ∀ (l : List ℚ) (j : ℕ), j + 1 < l.length →
      (diffs l).getD j 0 = l.getD (j + 1) 0 - l.getD j 0 := by
  intro l
  induction l with
  | nil => intro j h; simp at h
  | cons a t ih =>
    intro j h
    cases t with
    | nil => simp at h
    | cons b t' =>
      cases j with
      | zero => simp [diffs]
      | succ j =>
        simp only [diffs, List.getD_cons_succ]
        exact ih j (by simpa using h)

lemma pdfFromCdf_length : ∀ l : List ℚ, (pdfFromCdf l).length = l.length := by
  intro l
  cases l with
  | nil => rfl
  | cons c rest =>
    simp only [pdfFromCdf, List.length_cons, diffs_length]
    omega

lemma pdfFromCdf_getD_zero (l : List ℚ) (h : l ≠ []) :
    (pdfFromCdf l).getD 0 0 = l.getD 0 0 := by
  cases l with
  | nil => exact absurd rfl h
  | cons c rest => rfl

lemma pdfFromCdf_getD_succ (l : List ℚ) (j : ℕ) (h : j + 1 < l.length) :
    (pdfFromCdf l).getD (j + 1) 0 = l.getD (j + 1) 0 - l.getD j 0 := by
  cases l with
  | nil => simp at h
  | cons c rest =>
    show (diffs (c :: rest)).getD j 0 = _
    exact diffs_getD (c :: rest) j h

/-! ### Claim C1 -/

/-- C1: for a constant (non-callable) value `v`, cost `c`, bound `b > 0` and
resolution `num`, any Distribution returned by `gtilde` has the `num`-point
uniform grid from `b/num` to `b` (`grid[i] = (i+1)·b/num`), satisfies
`cdf[i] = c(grid[i]) / v` at every grid point, and its returned pdf is
`num` times the first difference of that cdf, the first element being the
cdf at the first grid point. -/
theorem gtilde_const_closed_form (sv : Solver) (v : ℚ) (c : Cost) (b : ℚ)
    (num : ℕ) (d : Distr) (hb : 0 < b) (hn : 0 < num)
    (h : gtilde sv (.const v) c b num = .ok d) :
    d.s.length = num ∧ d.cdf.length = num ∧ d.pdf.length = num ∧
    (∀ i < num, d.s.getD i 0 = ((i : ℚ) + 1) * b / num) ∧
    (∀ i < num, d.cdf.getD i 0 = c (d.s.getD i 0) / v) ∧
    d.pdf.getD 0 0 = num * d.cdf.getD 0 0 ∧
    (∀ i, 0 < i → i < num →
      d.pdf.getD i 0 = num * (d.cdf.getD i 0 - d.cdf.getD (i - 1) 0)) := by
  obtain ⟨-, hsEq, hpdfEq, hcdfEq, -, -, -, -⟩ := gtilde_ok_elim sv (.const v) c b num d h
  have hs' : d.s = linspace (b / (num : ℚ)) b num := hsEq
  have hc' : d.cdf = (linspace (b / (num : ℚ)) b num).map (fun s => c s / v) := hcdfEq
  have hp' : d.pdf =
      (pdfFromCdf ((linspace (b / (num : ℚ)) b num).map (fun s => c s / v))).map
        (fun x => x * (num : ℚ)) := hpdfEq
  have hLlen : ((linspace (b / (num : ℚ)) b num).map (fun s => c s / v)).length = num := by
    rw [List.length_map, length_linspace]
  refine ⟨by rw [hs', length_linspace], by rw [hc', hLlen],
    by rw [hp', List.length_map, pdfFromCdf_length, hLlen], ?_, ?_, ?_, ?_⟩
  · intro i hi
    rw [hs']
    exact linspace_getD b num hn i hi
  · intro i hi
    rw [hc', hs']
    exact getD_map_general (fun s => c s / v) 0 0 _ i (by rw [length_linspace]; exact hi)
  · rw [hp', hc']
    rw [getD_map_general (fun x => x * (num : ℚ)) 0 0 _ 0
      (by rw [pdfFromCdf_length, hLlen]; exact hn)]
    rw [pdfFromCdf_getD_zero _ (by intro hemp; rw [hemp] at hLlen; simp at hLlen; omega)]
    exact mul_comm _ _
  · intro i hpos hi
    cases i with
    | zero => exact absurd hpos (by omega)
    | succ j =>
      rw [hp', hc']
      rw [getD_map_general (fun x => x * (num : ℚ)) 0 0 _ (j + 1)
        (by rw [pdfFromCdf_length, hLlen]; exact hi)]
      rw [pdfFromCdf_getD_succ _ j (by rw [hLlen]; exact hi)]
      simp only [Nat.add_sub_cancel]
      ring

/-- C1 witness: the hypotheses of `gtilde_const_closed_form` hold and its
conclusion evaluates at `v = 1`, `c = id`, `b = 1`, `num = 2`. -/
theorem gtilde_const_closed_form_witness :
    (0 : ℚ) < 1 ∧ 0 < 2 ∧ gtilde sv0 (.const 1) cid 1 2 = .ok d1ex ∧
    (d1ex.s.length = 2 ∧ d1ex.cdf.length = 2 ∧ d1ex.pdf.length = 2 ∧
      (∀ i < 2, d1ex.s.getD i 0 = ((i : ℚ) + 1) * 1 / 2) ∧
      (∀ i < 2, d1ex.cdf.getD i 0 = cid (d1ex.s.getD i 0) / 1) ∧
      d1ex.pdf.getD 0 0 = 2 * d1ex.cdf.getD 0 0 ∧
      (∀ i, 0 < i → i < 2 →
        d1ex.pdf.getD i 0 = 2 * (d1ex.cdf.getD i 0 - d1ex.cdf.getD (i - 1) 0))) := by
  refine ⟨by norm_num, by norm_num, gtilde_eval_one, ?_⟩
  have hmain := gtilde_const_closed_form sv0 1 cid 1 2 d1ex (by norm_num) (by norm_num)
    gtilde_eval_one
  simpa using hmain

/-! ### Claim C2 -/

/-- C2 counterexample: with constant value 1 and the non-monotone cost
`cbad2`, `gtilde` returns a Distribution whose `sbari` is 0 even though
index 1 also satisfies `cdf ≤ 1` (so `sbari` is not the largest such
index), and `cdf[sbari] = 2 > 1` even though `sbari` is not the last index
(so `cdf[sbari] ≤ 1 < cdf[sbari+1]` fails as well). -/
theorem gtilde_sbari_not_largest_cex :
    gtilde sv0 (.const 1) cbad2 1 2 = .ok d2bad ∧
    d2bad.sbari = 0 ∧
    1 < d2bad.cdf.length ∧
    d2bad.cdf.getD 1 0 ≤ 1 ∧
    ¬ d2bad.cdf.getD d2bad.sbari 0 ≤ 1 :=
  ⟨gtilde_eval_bad2, rfl, by norm_num [d2bad], by norm_num [d2bad], by norm_num [d2bad]⟩

/-- C2 (amended): for every Distribution returned by `gtilde` whose grid is
strictly increasing and whose cdf is non-decreasing (as holds for a
non-decreasing cost and positive constant value), `sbari` is the largest
grid index with `cdf[i] ≤ 1`, and whenever `sbari` is not the last index,
`cdf[sbari] ≤ 1 < cdf[sbari+1]`. -/
theorem gtilde_sbari_largest_of_monotone (sv : Solver) (vi : Value) (ci : Cost)
    (b : ℚ) (num : ℕ) (d : Distr) (h : gtilde sv vi ci b num = .ok d)
    (hs : d.s.Pairwise (· < ·)) (hc : d.cdf.Pairwise (· ≤ ·)) :
    d.sbari < d.cdf.length ∧
    d.cdf.getD d.sbari 0 ≤ 1 ∧
    (∀ j < d.cdf.length, d.cdf.getD j 0 ≤ 1 → j ≤ d.sbari) ∧
    (d.sbari + 1 < d.cdf.length → 1 < d.cdf.getD (d.sbari + 1) 0) :=
  gtilde_ok_sbari_spec sv vi ci b num d h hs hc

/-- C2 witness: the amended claim instantiated at `v = 1`, `c = id`,
`b = 1`, `num = 2`, whose cdf `[1/2, 1]` is non-decreasing. -/
theorem gtilde_sbari_largest_of_monotone_witness :
    gtilde sv0 (.const 1) cid 1 2 = .ok d1ex ∧
    d1ex.s.Pairwise (· < ·) ∧ d1ex.cdf.Pairwise (· ≤ ·) ∧
    (d1ex.sbari < d1ex.cdf.length ∧
     d1ex.cdf.getD d1ex.sbari 0 ≤ 1 ∧
     (∀ j < d1ex.cdf.length, d1ex.cdf.getD j 0 ≤ 1 → j ≤ d1ex.sbari) ∧
     (d1ex.sbari + 1 < d1ex.cdf.length → 1 < d1ex.cdf.getD (d1ex.sbari + 1) 0)) := by
  have hpw1 : d1ex.s.Pairwise (· < ·) := by norm_num [d1ex, List.pairwise_cons]
  have hpw2 : d1ex.cdf.Pairwise (· ≤ ·) := by norm_num [d1ex, List.pairwise_cons]
  exact ⟨gtilde_eval_one, hpw1, hpw2,
    gtilde_sbari_largest_of_monotone sv0 (.const 1) cid 1 2 d1ex gtilde_eval_one hpw1 hpw2⟩

/-! ### The bound-doubling loop -/

lemma eq2pLoop_step (sv : Solver) (v1 : Value) (c1 : Cost) (v2 : Value)
    (c2 : Cost) (num fuel : ℕ) (b : ℚ) :
    eq2pLoop sv v1 c1 v2 c2 num (fuel + 1) b =
      match gtilde sv v1 c1 b num with
      | .error e => .error (.solver e)
      | .ok player2 =>
        match gtilde sv v2 c2 b num with
        | .error e => .error (.solver e)
        | .ok player1 =>
          if player1.success || player2.success then .ok (player1, player2, b)
          else eq2pLoop sv v1 c1 v2 c2 num fuel (2 * b) := rfl

lemma eq2pLoop_ok_inv (sv : Solver) (v1 : Value) (c1 : Cost) (v2 : Value)
    (c2 : Cost) (num : ℕ) :
    ∀ (fuel : ℕ) (b bf : ℚ) (p1 p2 : Distr),
      eq2pLoop sv v1 c1 v2 c2 num fuel b = .ok (p1, p2, bf) →
      gtilde sv v2 c2 bf num = .ok p1 ∧ gtilde sv v1 c1 bf num = .ok p2 ∧
      (p1.success || p2.success) = true ∧ ∃ j : ℕ, bf = 2 ^ j * b := by
  intro fuel
  induction fuel with
  | zero => intro b bf p1 p2 h; simp [eq2pLoop] at h
  | succ fuel ih =>
    intro b bf p1 p2 h
    rw [eq2pLoop_step] at h
    split at h
    next => simp at h
    next q2 hg2 =>
      split at h
      next => simp at h
      next q1 hg1 =>
        split at h
        next hsucc =>
          simp only [Except.ok.injEq, Prod.mk.injEq] at h
          obtain ⟨h1, h2, h3⟩ := h
          subst h1; subst h2; subst h3
          exact ⟨hg1, hg2, hsucc, 0, by rw [pow_zero, one_mul]⟩
        next hsucc =>
          obtain ⟨ha, hb', hc', j, hj⟩ := ih (2 * b) bf p1 p2 h
          exact ⟨ha, hb', hc', j + 1, by rw [hj]; ring⟩

lemma eq2pLoop_eval_two :
    eq2pLoop sv0 (.const 1) cid (.const 1) cid 2 1 2 = .ok (d2ex, d2ex, 2) := by
  rw [show (1 : ℕ) = 0 + 1 from rfl, eq2pLoop_step, gtilde_eval_two]
  rfl

lemma eq2pLoop_eval_chain :
    eq2pLoop sv0 (.const 1) cid (.const 1) cid 2 3 (1/2) = .ok (d2ex, d2ex, 2) := by
  rw [show (3 : ℕ) = 2 + 1 from rfl, eq2pLoop_step, gtilde_eval_half]
  norm_num [dHalf]
  rw [show (2 : ℕ) = 1 + 1 from rfl, eq2pLoop_step, gtilde_eval_one]
  norm_num [d1ex]
  exact eq2pLoop_eval_two

/-! ### Claim C5 -/

/-- C5: whenever the search loop of `eq2p` returns, player 1's
distribution came from the solver run with player 2's value and cost
functions and vice versa (the roles are crossed), at the final bound,
which is the initial bound times a power of two. -/
theorem eq2p_roles_crossed (sv : Solver) (v1 : Value) (c1 : Cost) (v2 : Value)
    (c2 : Cost) (num fuel : ℕ) (b bf : ℚ) (p1 p2 : Distr)
    (h : eq2pLoop sv v1 c1 v2 c2 num fuel b = .ok (p1, p2, bf)) :
    gtilde sv v2 c2 bf num = .ok p1 ∧ gtilde sv v1 c1 bf num = .ok p2 ∧
    ∃ j : ℕ, bf = 2 ^ j * b := by
  obtain ⟨h1, h2, -, hj⟩ := eq2pLoop_ok_inv sv v1 c1 v2 c2 num fuel b bf p1 p2 h
  exact ⟨h1, h2, hj⟩

/-- C5 witness: a terminating loop run at `v = 1`, `c = id`, `b = 2`,
`num = 2`, whose returned distributions satisfy the crossed equations. -/
theorem eq2p_roles_crossed_witness :
    eq2pLoop sv0 (.const 1) cid (.const 1) cid 2 1 2 = .ok (d2ex, d2ex, 2) ∧
    (gtilde sv0 (.const 1) cid 2 2 = .ok d2ex ∧
     gtilde sv0 (.const 1) cid 2 2 = .ok d2ex ∧ ∃ j : ℕ, (2 : ℚ) = 2 ^ j * 2) :=
  ⟨eq2pLoop_eval_two,
    eq2p_roles_crossed sv0 (.const 1) cid (.const 1) cid 2 1 2 2 d2ex d2ex
      eq2pLoop_eval_two⟩

/-! ### Claim C4 -/

/-- C4: the bound-doubling loop (i) exits at the current bound as soon as
at least one player's solve is valid, (ii) when both solves return and
neither is valid it doubles the bound and reruns both solver calls, and
(iii) it does not run out of fuel — i.e. terminates, normally or with a
propagated solver exception — within `k+1` iterations whenever at least
one player's solve at bound `2^k · b` returns with its `success` flag
set. -/
theorem eq2p_bound_doubling (sv : Solver) (v1 : Value) (c1 : Cost) (v2 : Value)
    (c2 : Cost) (num : ℕ) :
    (∀ (fuel : ℕ) (b : ℚ) (p1 p2 : Distr),
      gtilde sv v1 c1 b num = .ok p2 → gtilde sv v2 c2 b num = .ok p1 →
      (p1.success || p2.success) = true →
      eq2pLoop sv v1 c1 v2 c2 num (fuel + 1) b = .ok (p1, p2, b)) ∧
    (∀ (fuel : ℕ) (b : ℚ) (p1 p2 : Distr),
      gtilde sv v1 c1 b num = .ok p2 → gtilde sv v2 c2 b num = .ok p1 →
      (p1.success || p2.success) = false →
      eq2pLoop sv v1 c1 v2 c2 num (fuel + 1) b
        = eq2pLoop sv v1 c1 v2 c2 num fuel (2 * b)) ∧
    (∀ (b : ℚ) (k : ℕ),
      ((∃ p2 : Distr, gtilde sv v1 c1 (2 ^ k * b) num = .ok p2 ∧ p2.success = true) ∨
       (∃ p1 : Distr, gtilde sv v2 c2 (2 ^ k * b) num = .ok p1 ∧ p1.success = true)) →
      eq2pLoop sv v1 c1 v2 c2 num (k + 1) b ≠ .error .fuelOut) := by
  refine ⟨?_, ?_, ?_⟩
  · intro fuel b p1 p2 h2 h1 hs
    rw [eq2pLoop_step, h2, h1]
    simp [hs]
  · intro fuel b p1 p2 h2 h1 hs
    rw [eq2pLoop_step, h2, h1]
    simp [hs]
  · intro b k
    induction k generalizing b with
    | zero =>
      intro hyp
      rw [pow_zero, one_mul] at hyp
      rw [eq2pLoop_step]
      cases hg2 : gtilde sv v1 c1 b num with
      | error e => simp
      | ok q2 =>
        cases hg1 : gtilde sv v2 c2 b num with
        | error e => simp
        | ok q1 =>
          have hsucc : (q1.success || q2.success) = true := by
            rcases hyp with ⟨p2, hp2, hs2⟩ | ⟨p1, hp1, hs1⟩
            · rw [hg2] at hp2
              obtain rfl := Except.ok.inj hp2
              simp [hs2]
            · rw [hg1] at hp1
              obtain rfl := Except.ok.inj hp1
              simp [hs1]
          simp [hsucc]
    | succ k ih =>
      intro hyp
      rw [eq2pLoop_step]
      cases hg2 : gtilde sv v1 c1 b num with
      | error e => simp
      | ok q2 =>
        cases hg1 : gtilde sv v2 c2 b num with
        | error e => simp
        | ok q1 =>
          by_cases hq : (q1.success || q2.success) = true
          · simp [hq]
          · simp only [hq, if_false, ite_false]
            have hpow : (2 : ℚ) ^ (k + 1) * b = 2 ^ k * (2 * b) := by ring
            rw [hpow] at hyp
            simpa using ih (2 * b) hyp

/-- C4 witness: at `v = 1`, `c = id`, `num = 2` — (i) the loop exits
immediately at `b = 2` where `success` holds; (ii) at `b = 1/2`, where
neither player is valid, one iteration equals the loop restarted at the
doubled bound; (iii) starting from `b = 1/2`, validity at `2² · (1/2) = 2`
gives termination within 3 iterations. -/
theorem eq2p_bound_doubling_witness :
    eq2pLoop sv0 (.const 1) cid (.const 1) cid 2 (0 + 1) 2 = .ok (d2ex, d2ex, 2) ∧
    eq2pLoop sv0 (.const 1) cid (.const 1) cid 2 (1 + 1) (1/2)
      = eq2pLoop sv0 (.const 1) cid (.const 1) cid 2 1 (2 * (1/2)) ∧
    eq2pLoop sv0 (.const 1) cid (.const 1) cid 2 (2 + 1) (1/2) ≠ .error .fuelOut := by
  obtain ⟨hA, hB, hC⟩ := eq2p_bound_doubling sv0 (.const 1) cid (.const 1) cid 2
  refine ⟨hA 0 2 d2ex d2ex gtilde_eval_two gtilde_eval_two rfl,
    hB 1 (1/2) dHalf dHalf gtilde_eval_half gtilde_eval_half rfl,
    hC (1/2) 2 (Or.inl ⟨d2ex, ?_, rfl⟩)⟩
  rw [show (2 : ℚ) ^ 2 * (1/2) = 2 by norm_num]
  exact gtilde_eval_two

/-! ### Claim C3 -/

/-- C3: all the way through `eq2p`, each returned cdf is the player's
truncated atomless cdf shifted by `- cdf[cutoff] + 1`, hence both returned
CDFs are exactly 1 at the cutoff index `min(sbari1, sbari2)`, the last
retained entry. -/
theorem eq2p_cdf_atom_adjusted (sv : Solver) (vin : VInput) (cin : CInput)
    (bIn : Option ℚ) (num fuel : ℕ) (v1 v2 : Value) (c1 c2 : Cost)
    (p1 p2 : Distr) (bf : ℚ)
    (hv : interpV vin = .ok (v1, v2)) (hc : interpC vin cin = .ok (c1, c2))
    (hloop : eq2pLoop sv v1 c1 v2 c2 num fuel (initBound v1 c1 v2 c2 num bIn)
      = .ok (p1, p2, bf)) :
    eq2p sv vin cin bIn num fuel = .ok (mkEqui p1 p2 bf) ∧
    (∀ j ≤ min p1.sbari p2.sbari,
      (mkEqui p1 p2 bf).cdf.1.getD j 0
        = p1.cdf.getD j 0 - p1.cdf.getD (min p1.sbari p2.sbari) 0 + 1) ∧
    (∀ j ≤ min p1.sbari p2.sbari,
      (mkEqui p1 p2 bf).cdf.2.getD j 0
        = p2.cdf.getD j 0 - p2.cdf.getD (min p1.sbari p2.sbari) 0 + 1) ∧
    (mkEqui p1 p2 bf).cdf.1.getD (min p1.sbari p2.sbari) 0 = 1 ∧
    (mkEqui p1 p2 bf).cdf.2.getD (min p1.sbari p2.sbari) 0 = 1 := by
  obtain ⟨hg1, hg2, -, -⟩ :=
    eq2pLoop_ok_inv sv v1 c1 v2 c2 num fuel _ bf p1 p2 hloop
  have hlt1 := (gtilde_ok_sbari_lt _ _ _ _ _ _ hg1).1
  have hlt2 := (gtilde_ok_sbari_lt _ _ _ _ _ _ hg2).1
  have hb1 : min p1.sbari p2.sbari < p1.cdf.length :=
    lt_of_le_of_lt (min_le_left _ _) hlt1
  have hb2 : min p1.sbari p2.sbari < p2.cdf.length :=
    lt_of_le_of_lt (min_le_right _ _) hlt2
  have hcdf1 : (mkEqui p1 p2 bf).cdf.1
      = (p1.cdf.take (min p1.sbari p2.sbari + 1)).map
        (fun x => x - (p1.cdf.take (min p1.sbari p2.sbari + 1)).getD
          ((p1.cdf.take (min p1.sbari p2.sbari + 1)).length - 1) 0 + 1) := rfl
  have hcdf2 : (mkEqui p1 p2 bf).cdf.2
      = (p2.cdf.take (min p1.sbari p2.sbari + 1)).map
        (fun x => x - (p2.cdf.take (min p1.sbari p2.sbari + 1)).getD
          ((p2.cdf.take (min p1.sbari p2.sbari + 1)).length - 1) 0 + 1) := rfl
  have hlen1 : (p1.cdf.take (min p1.sbari p2.sbari + 1)).length
      = min p1.sbari p2.sbari + 1 := by
    rw [List.length_take]
    exact min_eq_left (by omega)
  have hlen2 : (p2.cdf.take (min p1.sbari p2.sbari + 1)).length
      = min p1.sbari p2.sbari + 1 := by
    rw [List.length_take]
    exact min_eq_left (by omega)
  have hlast1 : (p1.cdf.take (min p1.sbari p2.sbari + 1)).getD
      ((p1.cdf.take (min p1.sbari p2.sbari + 1)).length - 1) 0
      = p1.cdf.getD (min p1.sbari p2.sbari) 0 := by
    rw [hlen1, Nat.add_sub_cancel]
    exact getD_take_of_lt _ _ _ (by omega) hb1
  have hlast2 : (p2.cdf.take (min p1.sbari p2.sbari + 1)).getD
      ((p2.cdf.take (min p1.sbari p2.sbari + 1)).length - 1) 0
      = p2.cdf.getD (min p1.sbari p2.sbari) 0 := by
    rw [hlen2, Nat.add_sub_cancel]
    exact getD_take_of_lt _ _ _ (by omega) hb2
  have hval1 : ∀ j ≤ min p1.sbari p2.sbari,
      (mkEqui p1 p2 bf).cdf.1.getD j 0
        = p1.cdf.getD j 0 - p1.cdf.getD (min p1.sbari p2.sbari) 0 + 1 := by
    intro j hj
    rw [hcdf1, getD_map_general _ 0 0 _ j (by rw [hlen1]; omega), hlast1,
      getD_take_of_lt _ _ _ (by omega) (by omega)]
  have hval2 : ∀ j ≤ min p1.sbari p2.sbari,
      (mkEqui p1 p2 bf).cdf.2.getD j 0
        = p2.cdf.getD j 0 - p2.cdf.getD (min p1.sbari p2.sbari) 0 + 1 := by
    intro j hj
    rw [hcdf2, getD_map_general _ 0 0 _ j (by rw [hlen2]; omega), hlast2,
      getD_take_of_lt _ _ _ (by omega) (by omega)]
  refine ⟨?_, hval1, hval2, ?_, ?_⟩
  · simp only [eq2p, hv, hc, hloop]
  · rw [hval1 _ (le_refl _)]
    ring
  · rw [hval2 _ (le_refl _)]
    ring

/-- C3 witness: the full `eq2p` call at `v = 1` (bare), `c = id` (bare),
`b = 2`, `num = 2`, where the cutoff index is 0 and both returned CDFs are
`[1]`. -/
theorem eq2p_cdf_atom_adjusted_witness :
    interpV (.bare (.const 1)) = .ok (Value.const 1, Value.const 1) ∧
    interpC (.bare (.const 1)) (.bare cid) = .ok (cid, cid) ∧
    eq2pLoop sv0 (.const 1) cid (.const 1) cid 2 1
      (initBound (.const 1) cid (.const 1) cid 2 (some 2)) = .ok (d2ex, d2ex, 2) ∧
    (eq2p sv0 (.bare (.const 1)) (.bare cid) (some 2) 2 1
        = .ok (mkEqui d2ex d2ex 2) ∧
      (∀ j ≤ min d2ex.sbari d2ex.sbari,
        (mkEqui d2ex d2ex 2).cdf.1.getD j 0
          = d2ex.cdf.getD j 0 - d2ex.cdf.getD (min d2ex.sbari d2ex.sbari) 0 + 1) ∧
      (∀ j ≤ min d2ex.sbari d2ex.sbari,
        (mkEqui d2ex d2ex 2).cdf.2.getD j 0
          = d2ex.cdf.getD j 0 - d2ex.cdf.getD (min d2ex.sbari d2ex.sbari) 0 + 1) ∧
      (mkEqui d2ex d2ex 2).cdf.1.getD (min d2ex.sbari d2ex.sbari) 0 = 1 ∧
      (mkEqui d2ex d2ex 2).cdf.2.getD (min d2ex.sbari d2ex.sbari) 0 = 1) := by
  have hv : interpV (.bare (.const 1)) = .ok (Value.const 1, Value.const 1) := rfl
  have hc : interpC (.bare (.const 1)) (.bare cid) = .ok (cid, cid) := rfl
  have hl : eq2pLoop sv0 (.const 1) cid (.const 1) cid 2 1
      (initBound (.const 1) cid (.const 1) cid 2 (some 2)) = .ok (d2ex, d2ex, 2) :=
    eq2pLoop_eval_two
  exact ⟨hv, hc, hl,
    eq2p_cdf_atom_adjusted sv0 (.bare (.const 1)) (.bare cid) (some 2) 2 1
      (.const 1) (.const 1) cid cid d2ex d2ex 2 hv hc hl⟩

/-! ### Claim C7 -/

lemma eq2pLoop_eval_bad3 :
    eq2pLoop sv0 (.const 1) cbad3 (.const 1) cbad3 3 1 1 = .ok (d3bad, d3bad, 1) := by
  rw [show (1 : ℕ) = 0 + 1 from rfl, eq2pLoop_step, gtilde_eval_bad3]
  rfl

/-- C7 counterexample: with constant value 1 and the non-monotone cost
`cbad3` (bound 1, resolution 3), `eq2p` returns an Equilibrium whose
players' un-adjusted truncated cdf at the cutoff index is 2, so the atom
mass `1 - cdf[cutoff_index] = -1` is negative. -/
theorem eq2p_negative_atom_cex :
    eq2p sv0 (.bare (.const 1)) (.bare cbad3) (some 1) 3 1
      = .ok (mkEqui d3bad d3bad 1) ∧
    1 - d3bad.cdf.getD (min d3bad.sbari d3bad.sbari) 0 < 0 := by
  constructor
  · simp only [eq2p, interpV, interpC, initBound, eq2pLoop_eval_bad3]
  · norm_num [d3bad]

/-- C7 (amended): in every Equilibrium produced by the loop of `eq2p`,
provided each player's grid is strictly increasing and cdf non-decreasing
(as for monotone costs), both atom masses `1 - cdf_i[cutoff_index]` are
non-negative. -/
theorem eq2p_atoms_nonneg_of_monotone (sv : Solver) (v1 : Value) (c1 : Cost)
    (v2 : Value) (c2 : Cost) (num fuel : ℕ) (b bf : ℚ) (p1 p2 : Distr)
    (hloop : eq2pLoop sv v1 c1 v2 c2 num fuel b = .ok (p1, p2, bf))
    (hs1 : p1.s.Pairwise (· < ·)) (hc1 : p1.cdf.Pairwise (· ≤ ·))
    (hs2 : p2.s.Pairwise (· < ·)) (hc2 : p2.cdf.Pairwise (· ≤ ·)) :
    0 ≤ 1 - p1.cdf.getD (min p1.sbari p2.sbari) 0 ∧
    0 ≤ 1 - p2.cdf.getD (min p1.sbari p2.sbari) 0 := by
  obtain ⟨hg1, hg2, -, -⟩ := eq2pLoop_ok_inv sv v1 c1 v2 c2 num fuel b bf p1 p2 hloop
  obtain ⟨hlt1, hle1, -, -⟩ := gtilde_ok_sbari_spec _ _ _ _ _ _ hg1 hs1 hc1
  obtain ⟨hlt2, hle2, -, -⟩ := gtilde_ok_sbari_spec _ _ _ _ _ _ hg2 hs2 hc2
  constructor
  · have hmono : p1.cdf.getD (min p1.sbari p2.sbari) 0 ≤ p1.cdf.getD p1.sbari 0 :=
      pairwise_le_getD _ hc1 _ _ (min_le_left _ _) hlt1
    linarith
  · have hmono : p2.cdf.getD (min p1.sbari p2.sbari) 0 ≤ p2.cdf.getD p2.sbari 0 :=
      pairwise_le_getD _ hc2 _ _ (min_le_right _ _) hlt2
    linarith

/-- C7 witness: the amended claim at `v = 1`, `c = id`, `b = 2`, `num = 2`,
where both atoms are `1 - 1 = 0 ≥ 0`. -/
theorem eq2p_atoms_nonneg_of_monotone_witness :
    eq2pLoop sv0 (.const 1) cid (.const 1) cid 2 1 2 = .ok (d2ex, d2ex, 2) ∧
    d2ex.s.Pairwise (· < ·) ∧ d2ex.cdf.Pairwise (· ≤ ·) ∧
    (0 ≤ 1 - d2ex.cdf.getD (min d2ex.sbari d2ex.sbari) 0 ∧
     0 ≤ 1 - d2ex.cdf.getD (min d2ex.sbari d2ex.sbari) 0) := by
  have h1 : d2ex.s.Pairwise (· < ·) := by norm_num [d2ex, List.pairwise_cons]
  have h2 : d2ex.cdf.Pairwise (· ≤ ·) := by norm_num [d2ex, List.pairwise_cons]
  exact ⟨eq2pLoop_eval_two, h1, h2,
    eq2p_atoms_nonneg_of_monotone sv0 (.const 1) cid (.const 1) cid 2 1 2 2
      d2ex d2ex eq2pLoop_eval_two h1 h2 h1 h2⟩

/-! ### Claim C8 -/

/-- C8: `eq2p` is deterministic — two invocations with identical solver
backend, value pair, cost pair, bound argument, resolution and fuel return
identical results; in particular on success the bound, cutoff index, grid,
pdf pair and cdf pair coincide. -/
theorem eq2p_deterministic (sv : Solver) (vin : VInput) (cin : CInput)
    (bIn : Option ℚ) (num fuel : ℕ) (r1 r2 : Except EqErr Equi)
    (h1 : eq2p sv vin cin bIn num fuel = r1)
    (h2 : eq2p sv vin cin bIn num fuel = r2) :
    r1 = r2 ∧
    ∀ e1 e2 : Equi, r1 = .ok e1 → r2 = .ok e2 →
      e1.b = e2.b ∧ e1.sbari = e2.sbari ∧ e1.s = e2.s ∧
      e1.pdf = e2.pdf ∧ e1.cdf = e2.cdf := by
  subst h1
  subst h2
  refine ⟨rfl, ?_⟩
  intro e1 e2 he1 he2
  rw [he1] at he2
  have he := Except.ok.inj he2
  subst he
  exact ⟨rfl, rfl, rfl, rfl, rfl⟩

/-- C8 witness: the determinism theorem applied at the concrete call
`eq2p(1, id, b=2, num=2)`, both runs evaluating to the same Equilibrium. -/
theorem eq2p_deterministic_witness :
    eq2p sv0 (.bare (.const 1)) (.bare cid) (some 2) 2 1
      = .ok (mkEqui d2ex d2ex 2) ∧
    ((.ok (mkEqui d2ex d2ex 2) : Except EqErr Equi) = .ok (mkEqui d2ex d2ex 2) ∧
     ∀ e1 e2 : Equi, (.ok (mkEqui d2ex d2ex 2) : Except EqErr Equi) = .ok e1 →
       (.ok (mkEqui d2ex d2ex 2) : Except EqErr Equi) = .ok e2 →
       e1.b = e2.b ∧ e1.sbari = e2.sbari ∧ e1.s = e2.s ∧
       e1.pdf = e2.pdf ∧ e1.cdf = e2.cdf) := by
  have heval : eq2p sv0 (.bare (.const 1)) (.bare cid) (some 2) 2 1
      = .ok (mkEqui d2ex d2ex 2) := by
    simp only [eq2p, interpV, interpC, initBound, eq2pLoop_eval_two]
  exact ⟨heval,
    eq2p_deterministic sv0 (.bare (.const 1)) (.bare cid) (some 2) 2 1 _ _ heval heval⟩

/-! ### Claim C9 -/

/-- C9: whenever the computed cdf exceeds 1 at every grid point (and the
grid and cdf have equal lengths, as always in the constant branch), no
index satisfies `cdf ≤ 1`, so `numpy.argmax` is applied to an empty array
and `gtilde` raises instead of returning a Distribution with a validity
flag. -/
theorem gtilde_raises_when_cdf_all_above_one (sv : Solver) (vi : Value)
    (ci : Cost) (b : ℚ) (num : ℕ) (hn : num ≠ 0)
    (hlen : (gtildeRaw sv vi ci b num).1.length
      = (gtildeRaw sv vi ci b num).2.2.length)
    (hall : ∀ x ∈ (gtildeRaw sv vi ci b num).2.2, 1 < x) :
    gtilde sv vi ci b num = .error .emptyArgmax := by
  unfold gtilde
  rw [if_neg hn]
  unfold gtildeFin
  rw [if_pos hlen]
  have hfil : ((gtildeRaw sv vi ci b num).1.zip (gtildeRaw sv vi ci b num).2.2).filter
      (fun p => decide (p.2 ≤ 1)) = [] := by
    refine List.filter_eq_nil_iff.mpr ?_
    intro a ha
    obtain ⟨a1, a2⟩ := a
    have hmem : a2 ∈ (gtildeRaw sv vi ci b num).2.2 := (List.of_mem_zip ha).2
    simp only [decide_eq_true_eq]
    exact not_le.mpr (hall a2 hmem)
  rw [hfil]
  rfl

/-- C9 witness: with value 1, cost `x + 2`, bound 1 and resolution 2 the
cdf is `[5/2, 3]`, everywhere above 1, and `gtilde` raises. -/
theorem gtilde_raises_when_cdf_all_above_one_witness :
    (2 : ℕ) ≠ 0 ∧
    (gtildeRaw sv0 (.const 1) cplus2 1 2).1.length
      = (gtildeRaw sv0 (.const 1) cplus2 1 2).2.2.length ∧
    (∀ x ∈ (gtildeRaw sv0 (.const 1) cplus2 1 2).2.2, 1 < x) ∧
    gtilde sv0 (.const 1) cplus2 1 2 = .error .emptyArgmax := by
  have hraw : gtildeRaw sv0 (.const 1) cplus2 1 2 = ([1/2, 1], [5/2, 1/2], [5/2, 3]) := by
    norm_num [gtildeRaw, linspace, List.range_succ, pdfFromCdf, diffs, cplus2]
  have hn : (2 : ℕ) ≠ 0 := by norm_num
  have hlen : (gtildeRaw sv0 (.const 1) cplus2 1 2).1.length
      = (gtildeRaw sv0 (.const 1) cplus2 1 2).2.2.length := by rw [hraw]; rfl
  have hall : ∀ x ∈ (gtildeRaw sv0 (.const 1) cplus2 1 2).2.2, 1 < x := by
    rw [hraw]
    intro x hx
    rcases List.mem_cons.mp hx with h | h
    · rw [h]; norm_num
    · rcases List.mem_cons.mp h with h' | h'
      · rw [h']; norm_num
      · simp at h'
  exact ⟨hn, hlen, hall,
    gtilde_raises_when_cdf_all_above_one sv0 (.const 1) cplus2 1 2 hn hlen hall⟩

/-! ### Claims C6 and C10 -/

/-- C6 (code evaluation at the failing arity combination): with `v` a
2-tuple and `c` a 1-tuple, `interpC` raises `ValueError` — the source's
third branch tests `len(v) == 1` instead of `len(c) == 1` — although the
same 1-tuple `c` is broadcast when `v` is a 1-tuple, and the 2-tuple `v`
itself is accepted; accordingly the whole of `eq2p` raises. -/
theorem interp_tuple_arity_bug :
    interpV (.tup [Value.const 1, Value.const 2]) = .ok (Value.const 1, Value.const 2) ∧
    interpC (.tup [Value.const 1, Value.const 2]) (.tup [cid]) = .error .valueError ∧
    interpC (.tup [Value.const 1]) (.tup [cid]) = .ok (cid, cid) ∧
    eq2p sv0 (.tup [Value.const 1, Value.const 2]) (.tup [cid]) (some 1) 2 1
      = .error (.py .valueError) :=
  ⟨rfl, rfl, rfl, rfl⟩

/-- C10 (code evaluation at the failing input): a bare value argument is
broadcast by `interpV`, but it is not handled "exactly as a 1-tuple would
be": with `c` a 1-tuple, the cost branch evaluates `len(v)` on the bare
(non-tuple) value and raises `TypeError`, while the same call with
`v = (1,)` succeeds and broadcasts `c`; the whole of `eq2p` accordingly
raises on the bare form. -/
theorem interp_bare_not_as_tuple :
    interpV (.bare (.const 1)) = .ok (Value.const 1, Value.const 1) ∧
    interpC (.bare (.const 1)) (.tup [cid]) = .error .typeError ∧
    interpC (.tup [Value.const 1]) (.tup [cid]) = .ok (cid, cid) ∧
    eq2p sv0 (.bare (.const 1)) (.tup [cid]) (some 1) 2 1
      = .error (.py .typeError) :=
  ⟨rfl, rfl, rfl, rfl⟩
